import Mathlib

/-!
# Verification of the hot-redis collection layer (`hot_redis.py`)

A shallow embedding of the core of `hot_redis.py`: Python values, the
element-type inference state machine (`Iterable._check_type`), value
reconstruction (`Iterable._set_type`), the command-dispatch proxy
(`Base._proxy`), the process-wide pipeline (batch) context, the `List`
slice read built on the remote `LRANGE` command, and the `Dict` hash
operations (`setdefault`, `get`, `__getitem__`, `values`).

Remote state is modelled explicitly: a Redis list is a Lean
`List String` (Redis stores binary-safe strings), a Redis hash is a
function `String → Option String`.  Values travel to the store through
`pyStr` (the client's `str(...)` encoding) and come back through
`setTypeList` (the typed reconstruction of raw replies).
-/

/-- Python runtime types that occur as element-type tags in the embedding
(`int`, `str`, python `list`, `NoneType`). `self.type` in the source holds
such a type (or Python `None`, modelled as `Option.none` around this). -/
inductive PyType where
  | int
  | str
  | list
  | nonetype
deriving DecidableEq, Repr

mutual

/-- A Python value as handled by the library: scalars and (possibly
nested) plain Python lists. -/
inductive PyVal where
  | int (n : Int)
  | str (s : String)
  | pynone
  | list (xs : PyValList)

/-- A plain Python list of values (spelled out as its own inductive so
that the mutual recursion below is structural). -/
inductive PyValList where
  | nil
  | cons (v : PyVal) (vs : PyValList)

end

/-- `type(value)` on scalars and plain lists. -/
def pyTypeOf : PyVal → PyType
  | .int _ => .int
  | .str _ => .str
  | .pynone => .nonetype
  | .list _ => .list

/-- `Iterable._is_many` as instantiated for a `List` handle: the value is
a plain Python list. -/
def isMany : PyVal → Bool
  | .list _ => true
  | _ => false

mutual

/-- `Iterable._check_type` for a `List` handle, made explicit as a state
transformer on the handle's element-type tag (`self.type`).  The result
is the tag after the call together with a success flag; `false` stands
for the raised `TypeError`.  Crucially, as in the source, the tag
mutation performed on the first scalar survives a `TypeError` raised on
a later element — exceptions do not roll `self.type` back. -/
def checkType : Option PyType → PyVal → Option PyType × Bool
  | tag, .list xs => checkMany tag xs
  | tag, v =>
    match tag with
    | none => (some (pyTypeOf v), true)
    | some t => if pyTypeOf v = t then (some t, true) else (some t, false)

/-- `map(self._check_type, value)` over a plain Python list: the checks
run left to right, threading the tag, and stop at the first failure. -/
def checkMany : Option PyType → PyValList → Option PyType × Bool
  | tag, .nil => (tag, true)
  | tag, .cons v vs =>
    match checkType tag v with
    | (tag2, true) => checkMany tag2 vs
    | (tag2, false) => (tag2, false)

end

/-- The tag of a fresh `Iterable` handle: `Iterable.__init__` sets
`self.type = None`. -/
def initTag : Option PyType := none

/-- The element-type tag after a handle runs `_check_type` on each value
of a sequence of write attempts in order (the only place the source ever
assigns `self.type` is inside `_check_type`). -/
def runChecks (tag : Option PyType) : List PyVal → Option PyType
  | [] => tag
  | v :: vs => runChecks (checkType tag v).1 vs

example : checkType none (.int 3) = (some .int, true) := rfl
example : checkMany none (.cons (.int 1) (.cons (.str "a") .nil)) = (some .int, false) := rfl
example : runChecks initTag [.int 1, .str "a", .int 2] = some .int := rfl

mutual

/-- The client-side `str(...)` encoding applied to values sent to the
store (redis-py transmits command arguments as strings). -/
def pyStr : PyVal → String
  | .int n => toString n
  | .str s => s
  | .pynone => "None"
  | .list xs => "[" ++ pyStrList xs ++ "]"

/-- `str(...)` of the elements of a Python list, comma-separated. -/
def pyStrList : PyValList → String
  | .nil => ""
  | .cons v .nil => pyStr v
  | .cons v vs => pyStr v ++ ", " ++ pyStrList vs

end

mutual

/-- Python `==` on embedded values (structural equality on scalars and
lists, as for the types the library handles). -/
def pyEqB : PyVal → PyVal → Bool
  | .int a, .int b => a == b
  | .str a, .str b => a == b
  | .pynone, .pynone => true
  | .list a, .list b => pyEqListB a b
  | _, _ => false

/-- Python `==` on two Python lists: equal lengths and pairwise `==`. -/
def pyEqListB : PyValList → PyValList → Bool
  | .nil, .nil => true
  | .cons v vs, .cons w ws => pyEqB v w && pyEqListB vs ws
  | _, _ => false

end

/-- Python `==` on two reconstructed list values (the lists `lrange`
replies reconstruct to are flat, so plain Lean lists suffice here). -/
def pyEqValsB : List PyVal → List PyVal → Bool
  | [], [] => true
  | v :: vs, w :: ws => pyEqB v w && pyEqValsB vs ws
  | _, _ => false

/-- `int(raw)` applied to a raw string reply, as `Iterable._set_type`
does when the adopted tag is `int`; `none` models the `ValueError`
Python's `int()` raises on a non-numeric string. -/
def intOfRaw (s : String) : Option PyVal :=
  (s.toInt?).map PyVal.int

/-- `Iterable._set_type` applied to a (flat) list reply, e.g. the reply
of `LRANGE`: with tag `str` the raw strings pass through unconverted;
with no tag the values are returned as they arrived (raw strings); with
tag `int` each element is converted by `int(...)`, which can fail
(`Option.none` models the raised `ValueError`). -/
def setTypeList (tag : Option PyType) (raws : List String) : Option (List PyVal) :=
  match tag with
  | some .str => some (raws.map PyVal.str)
  | none => some (raws.map PyVal.str)
  | some .int => raws.mapM intOfRaw
  | some _ => some (raws.map PyVal.str)

/-- The remote state a `List` handle addresses: one Redis list of
(binary-safe) strings. -/
structure ListState where
  tag : Option PyType
  items : List String
deriving DecidableEq, Repr

/-- Converts the explicit Python-list inductive back to a Lean list (the
order `rpush(*l)` pushes the elements in). -/
def pyValListToList : PyValList → List PyVal
  | .nil => []
  | .cons v vs => v :: pyValListToList vs

/-- `List.extend`: `self._check_type(l)` then `self.rpush(*l)`.  The
result pairs the state after the call with a success flag; on a
`TypeError` (`false`) `rpush` never runs, so the remote list is
untouched — but the tag mutation `_check_type` already performed
remains. -/
def listExtend (st : ListState) (l : PyValList) : ListState × Bool :=
  match checkType st.tag (.list l) with
  | (tag2, true) => ({ tag := tag2, items := st.items ++ (pyValListToList l).map pyStr }, true)
  | (tag2, false) => ({ tag := tag2, items := st.items }, false)

example : listExtend ⟨none, []⟩ (.cons (.int 1) (.cons (.str "a") .nil))
    = (⟨some .int, []⟩, false) := rfl
example : listExtend ⟨none, []⟩ (.cons (.int 1) (.cons (.int 2) .nil))
    = (⟨some .int, ["1", "2"]⟩, true) := rfl

/-- The remote `LRANGE key start stop` command on a stored list: `start`
and `stop` are zero-based and inclusive; a negative index counts from
the end of the list (`-1` is the last element); a start before the head
clamps to `0`, a stop past the tail clamps to the last element, and an
empty range yields the empty reply. -/
def lrange (xs : List String) (start stop : Int) : List String :=
  let n : Int := xs.length
  let s := if start < 0 then max (n + start) 0 else start
  let e := min (if stop < 0 then n + stop else stop) (n - 1)
  if s > e then [] else (xs.drop s.toNat).take (e - s + 1).toNat

example : lrange ["a", "b", "c"] 0 (-1) = ["a", "b", "c"] := rfl
example : lrange ["a", "b", "c"] 1 1 = ["b"] := rfl
example : lrange ["a", "b", "c"] 2 1 = [] := rfl
example : lrange ["a", "b", "c"] (-2) 5 = ["b", "c"] := rfl

/-- `List.__getitem__` on a slice: a missing `start` defaults to `0`, a
missing `stop` defaults to `0`, and the reply is
`self.lrange(start, stop - 1)` — the exclusive Python upper bound is
adjusted for the inclusive remote convention by subtracting one. -/
def listGetSlice (xs : List String) (start? stop? : Option Int) : List String :=
  let start := match start? with | some i => i | none => 0
  let stop := match stop? with | some i => i | none => 0
  lrange xs start (stop - 1)

example : listGetSlice ["a", "b", "c"] none none = ["a", "b", "c"] := rfl
example : listGetSlice ["a", "b", "c"] (some 1) (some 3) = ["b", "c"] := rfl

/-- A typed collection handle: the Redis key naming the remote state and
the handle-local element-type tag (`Iterable.__init__` stores both). -/
structure IterHandle where
  key : String
  tag : Option PyType
deriving DecidableEq, Repr

/-- The remote store as seen by `List` handles: each key names a Redis
list of strings. -/
def ListStore : Type := String → List String

/-- `List.value`, i.e. `self[:]`: the raw `lrange(0, -1)` reply for the
handle's key, reconstructed through `_set_type` with the handle's tag
(`none` models a raised `ValueError` during reconstruction). -/
def listValueOf (s : ListStore) (h : IterHandle) : Option (List PyVal) :=
  setTypeList h.tag (listGetSlice (s h.key) none none)

/-- `Iterable.__eq__` between two `List` handles: both sides materialize
`self.value` (`_to_value` on a handle of the same class returns its
`value`) and the reconstructed values are compared with Python `==`.
`none` models a `ValueError` escaping from either reconstruction. -/
def listEqB (s : ListStore) (h1 h2 : IterHandle) : Option Bool :=
  match listValueOf s h1, listValueOf s h2 with
  | some v1, some v2 => some (pyEqValsB v1 v2)
  | _, _ => none

/-- The module-global `_pipeline` slot: `None`, or the currently active
pipeline object.  A pipeline object is identified by a tag so that two
distinct `redis.pipeline()` results are distinguishable. -/
structure Pipeline where
  pid : Nat
deriving DecidableEq, Repr

/-- The process-wide routing state of the module: the single global
`_pipeline` variable that `client()` consults. -/
structure ProcState where
  activePipeline : Option Pipeline
deriving DecidableEq, Repr

/-- Entering the `pipeline()` context manager: the body before `yield`
runs `_pipeline = redis.pipeline()`, unconditionally overwriting the
global slot with the fresh pipeline object.  There is no check of the
previous contents and no failure path — the function is total. -/
def pipelineEnter (_st : ProcState) (fresh : Pipeline) : ProcState :=
  { activePipeline := some fresh }

/-- Leaving the `pipeline()` context manager: `_pipeline.execute()` then
`_pipeline = None`.  The reply is the pipeline that was executed (if
any) and the cleared routing state. -/
def pipelineExit (st : ProcState) : Option Pipeline × ProcState :=
  (st.activePipeline, { activePipeline := none })

/-- The attribute surface of the client object `client()` returns (the
live connection or the active pipeline): the set of names `getattr`
resolves, i.e. the native remote commands. -/
structure RedisClient where
  commands : List String
deriving DecidableEq, Repr

/-- `getattr(client(), name)` under the try/except of `Base._proxy`:
the resolved command name, or `none` for the caught `AttributeError`. -/
def getattrClient (cl : RedisClient) (name : String) : Option String :=
  if name ∈ cl.commands then some name else none

/-- Where a resolved native command executes: against the active batch
(`_pipeline`) or directly against the live connection. -/
inductive CallTarget where
  | batch
  | direct
deriving DecidableEq, Repr

/-- The outcome of dispatching one operation through `Base._proxy`. -/
inductive Dispatched where
  | native (target : CallTarget) (cmd : String) (key : String) (args : List String)
  | script (name : String) (keys : List String) (args : List String)
deriving DecidableEq, Repr

/-- `Base._proxy(name)` followed by the call of the returned lambda with
`args`: first `getattr(client(), name)` — on success the native command
runs with `self.key` prepended as the target key, against the pipeline
when one is active, else against the live connection; otherwise
`lua_funcs[name]` — on success the script runs with `keys=[self.key]`
and `args` as its arguments; otherwise `AttributeError(name)` is
raised, carrying the requested name. -/
def proxy (cl : RedisClient) (luaFuncs : List String) (st : ProcState)
    (key name : String) (args : List String) : Except String Dispatched :=
  match getattrClient cl name with
  | some cmd =>
    .ok (.native (if st.activePipeline.isSome then .batch else .direct) cmd key args)
  | none =>
    match luaFuncs.contains name with
    | true => .ok (.script name [key] args)
    | false => .error name

example : proxy ⟨["rpush"]⟩ ["list_pop"] ⟨none⟩ "k" "rpush" ["1"]
    = .ok (.native .direct "rpush" "k" ["1"]) := rfl
example : proxy ⟨["rpush"]⟩ ["list_pop"] ⟨some ⟨0⟩⟩ "k" "list_pop" ["2"]
    = .ok (.script "list_pop" ["k"] ["2"]) := rfl
example : proxy ⟨["rpush"]⟩ ["list_pop"] ⟨none⟩ "k" "frobnicate" []
    = .error "frobnicate" := rfl

/-- The remote state a `Dict` handle addresses: one Redis hash, a map
from field names to stored (binary-safe) strings.  No `Dict` method ever
calls `_check_type`, so a `Dict` handle's tag stays `None` for its whole
lifetime and `_set_type` on `hget` replies is the identity on the raw
string. -/
def HashStore : Type := String → Option String

/-- The remote `HSETNX key field value` command: stores `value` under
`field` only if the field is absent, replying `1` when it wrote and `0`
when the field already existed. -/
def hsetnx (st : HashStore) (name val : String) : HashStore × Int :=
  match st name with
  | some _ => (st, 0)
  | none => (fun f => if f = name then some val else st f, 1)

/-- The remote `HGET key field` command: the stored string, or the nil
reply for an absent field. -/
def hget (st : HashStore) (name : String) : Option String :=
  st name

/-- The `hget` reply as the Python value `Dict.get` sees: the raw stored
string (the `Dict` tag is always `None`, so `_set_type` passes it
through), or Python `None` for the nil reply. -/
def hgetPy (st : HashStore) (name : String) : PyVal :=
  match hget st name with
  | some s => .str s
  | none => .pynone

/-- Python truthiness on embedded values (`bool(v)`). -/
def pyTruthy : PyVal → Bool
  | .int n => n != 0
  | .str s => s != ""
  | .pynone => false
  | .list xs => match xs with | .nil => false | _ => true

/-- Python's short-circuiting `a or b` on values: `a` when truthy,
otherwise `b`. -/
def pyOr (a b : PyVal) : PyVal :=
  if pyTruthy a then a else b

/-- `Dict.setdefault(name, value)`: `hsetnx(name, value)` (the value is
encoded with `str(...)` on the wire), and the supplied `value` is
returned when the reply is `1`; otherwise the function body falls
through and Python returns `None`. -/
def dictSetdefault (st : HashStore) (name : String) (value : PyVal) : HashStore × PyVal :=
  let r := hsetnx st name (pyStr value)
  if r.2 = 1 then (r.1, value) else (r.1, .pynone)

/-- `Dict.get(name, default=None)`: `self.hget(name) or default`. -/
def dictGet (st : HashStore) (name : String) (default : PyVal) : PyVal :=
  pyOr (hgetPy st name) default

/-- `Dict.__getitem__(name)`: `value = self.get(name)`; `KeyError` is
raised when `value is None` (modelled by `.error ()`); otherwise the
body ends without a `return` statement, so Python returns `None` —
never the stored value. -/
def dictGetitem (st : HashStore) (name : String) : Except Unit PyVal :=
  let value := dictGet st name .pynone
  match value with
  | .pynone => .error ()
  | _ => .ok .pynone

/-- `Dict.values`: the body is `return self.values()`, a call to the
very method being defined.  The embedding makes the implicit call stack
explicit as a fuel argument: each recursive call consumes one unit, and
`none` is the absence of a result within that budget. -/
def dictValuesFuel (st : HashStore) : Nat → Option (List String)
  | 0 => none
  | fuel + 1 => dictValuesFuel st fuel

example : (dictSetdefault (fun _ => none) "a" (.int 5)).1 "a" = some "5" := rfl
example : (dictSetdefault (fun _ => none) "a" (.int 5)).2 = .int 5 := rfl

example : dictGet (fun f => if f = "a" then some "" else none) "a" (.str "d") = .str "d" := rfl
example : dictGetitem (fun f => if f = "a" then some "x" else none) "a" = .ok .pynone := rfl
example : dictGetitem (fun f => if f = "a" then some "" else none) "a" = .error () := rfl

/-! ## Helper lemmas -/

mutual

/-- Once the tag is a concrete type, `_check_type` never moves it: both
the match branch (`t == self.type`) and the mismatch branch (raise)
leave `self.type` untouched, and the recursion over a Python list only
threads it through. -/
theorem checkType_tag_fixed (t : PyType) (v : PyVal) :
    (checkType (some t) v).1 = some t := by
  cases v with
  | list xs => exact checkMany_tag_fixed t xs
  | int n => simp only [checkType]; split <;> rfl
  | str s => simp only [checkType]; split <;> rfl
  | pynone => simp only [checkType]; split <;> rfl

/-- `checkType_tag_fixed`, for the elementwise recursion over a Python
list. -/
theorem checkMany_tag_fixed (t : PyType) (vs : PyValList) :
    (checkMany (some t) vs).1 = some t := by
  cases vs with
  | nil => rfl
  | cons v vs =>
    have hv := checkType_tag_fixed t v
    simp only [checkMany]
    cases hcv : checkType (some t) v with
    | mk tag2 ok =>
      have htag2 : tag2 = some t := by rw [hcv] at hv; exact hv
      cases ok with
      | true => subst htag2; exact checkMany_tag_fixed t vs
      | false => simpa using htag2

end

/-- A concrete tag is a fixed point of any further sequence of
`_check_type` calls. -/
theorem runChecks_fixed (t : PyType) (vs : List PyVal) :
    runChecks (some t) vs = some t := by
  induction vs with
  | nil => rfl
  | cons v vs ih =>
    simp only [runChecks, checkType_tag_fixed]
    exact ih

/-- Running checks over a concatenated sequence threads the tag through
the first part and then the second. -/
theorem runChecks_append (tag : Option PyType) (vs1 vs2 : List PyVal) :
    runChecks tag (vs1 ++ vs2) = runChecks (runChecks tag vs1) vs2 := by
  induction vs1 generalizing tag with
  | nil => rfl
  | cons v vs1 ih => exact ih (checkType tag v).1

mutual

/-- Python `==` is reflexive on embedded values. -/
theorem pyEqB_refl (v : PyVal) : pyEqB v v = true := by
  cases v with
  | list xs => exact pyEqListB_refl xs
  | int n => simp [pyEqB]
  | str s => simp [pyEqB]
  | pynone => rfl

/-- Python `==` is reflexive on embedded Python lists. -/
theorem pyEqListB_refl (vs : PyValList) : pyEqListB vs vs = true := by
  cases vs with
  | nil => rfl
  | cons v vs => simp only [pyEqListB, pyEqB_refl, pyEqListB_refl, Bool.and_self]

end

/-- Python `==` is reflexive on reconstructed list values. -/
theorem pyEqValsB_refl (vs : List PyVal) : pyEqValsB vs vs = true := by
  induction vs with
  | nil => rfl
  | cons v vs ih => simp only [pyEqValsB, pyEqB_refl, ih, Bool.and_self]

/-- With non-negative bounds, the remote inclusive range request
`LRANGE start stop` returns the `stop - start + 1` elements from
position `start` on (clamped to the end of the list). -/
theorem lrange_nonneg (xs : List String) (start stop : Int)
    (h0 : 0 ≤ start) (h1 : 0 ≤ stop) :
    lrange xs start stop = (xs.drop start.toNat).take (stop - start + 1).toNat := by
  have hs : ¬ start < 0 := by omega
  have he : ¬ stop < 0 := by omega
  simp only [lrange, if_neg hs, if_neg he]
  by_cases hcase : min stop ((xs.length : Int) - 1) < start
  · rw [if_pos hcase]
    by_cases hss : stop < start
    · have hz : (stop - start + 1).toNat = 0 := by omega
      rw [hz, List.take_zero]
    · have hlen : xs.length ≤ start.toNat := by omega
      rw [List.drop_eq_nil_of_le hlen, List.take_nil]
  · rw [if_neg hcase]
    by_cases hm : stop ≤ (xs.length : Int) - 1
    · rw [min_eq_left hm]
    · have hmin : min stop ((xs.length : Int) - 1) = (xs.length : Int) - 1 := by omega
      rw [hmin]
      have hlen : (xs.drop start.toNat).length = xs.length - start.toNat :=
        List.length_drop _ _
      rw [List.take_of_length_le (by omega), List.take_of_length_le (by omega)]

/-! ## Claim theorems -/

/-- C1: the claim fails on the code.  `setdefault` on an absent field
does store and return the supplied value, but a second
`setdefault("a", 9)` on the now-present field returns Python `None`,
not the already-stored `"5"`: after `hsetnx` replies `0` the method
body falls through without a `return`.  The stored value is left
unchanged. -/
theorem dict_setdefault_present_returns_none :
    (dictSetdefault (fun _ => none) "a" (.int 5)).2 = .int 5
    ∧ (dictSetdefault (fun _ => none) "a" (.int 5)).1 "a" = some "5"
    ∧ (dictSetdefault (fun f => if f = "a" then some "5" else none) "a" (.int 9)).2 = .pynone
    ∧ (dictSetdefault (fun f => if f = "a" then some "5" else none) "a" (.int 9)).1 "a"
        = some "5" :=
  ⟨rfl, rfl, rfl, rfl⟩

/-- C2: the claim fails on the code.  For a field that is present and
stores the empty string, `get(name, default)` returns the default, not
the stored empty value: `self.hget(name) or default` treats the falsy
`""` like an absent field.  `__getitem__` likewise raises `KeyError` on
the present-but-empty field, so a stored empty value is not
distinguishable from not-found. -/
theorem dict_get_conflates_stored_empty :
    (fun f => if f = "a" then some "" else none : HashStore) "a" = some ""
    ∧ dictGet (fun f => if f = "a" then some "" else none) "a" (.str "d") = .str "d"
    ∧ dictGet (fun f => if f = "a" then some "" else none) "a" (.str "d") ≠ .str ""
    ∧ dictGetitem (fun f => if f = "a" then some "" else none) "a" = .error () :=
  ⟨rfl, rfl, fun h => absurd (PyVal.str.inj h) (by decide), rfl⟩

/-- C9: confirmed.  `Dict.__getitem__` raises `KeyError` exactly when
the `get` result is Python `None` — i.e. when the field is absent or
stores the falsy empty string — and in every other case ends without a
`return` statement, so it returns Python `None` and never the stored
value. -/
theorem dict_getitem_never_returns_stored (st : HashStore) (name : String) :
    dictGetitem st name
      = (match st name with
        | none => Except.error ()
        | some s => if s = "" then Except.error () else Except.ok PyVal.pynone) := by
  cases h : st name with
  | none => simp only [dictGetitem, dictGet, pyOr, hgetPy, hget, h, pyTruthy, Bool.false_eq_true,
      if_false]
  | some s =>
    simp only [dictGetitem, dictGet, pyOr, hgetPy, hget, h, pyTruthy]
    by_cases hs : s = ""
    · subst hs
      simp
    · simp [hs]

/-- C10: confirmed.  `Dict.values` is `return self.values()`, a call to
the method being defined; under any finite call-stack budget the
embedding produces no result, for every hash state. -/
theorem dict_values_diverges (st : HashStore) (fuel : Nat) :
    dictValuesFuel st fuel = none := by
  induction fuel with
  | zero => rfl
  | succ n ih => exact ih

/-- C3: the claim fails on the code.  From a process state whose global
`_pipeline` slot already holds an active batch, entering the
`pipeline()` context does not raise: it assigns a fresh
`redis.pipeline()` into the slot, silently replacing (not keeping, not
nesting) the batch that was active. -/
theorem pipeline_reenter_no_error :
    pipelineEnter ⟨some ⟨0⟩⟩ ⟨1⟩ = ⟨some ⟨1⟩⟩
    ∧ (⟨some ⟨0⟩⟩ : ProcState).activePipeline ≠ none
    ∧ (pipelineEnter ⟨some ⟨0⟩⟩ ⟨1⟩).activePipeline ≠ some ⟨0⟩ := by
  refine ⟨rfl, ?_, ?_⟩ <;> decide

/-- C3 (amended): entering the batch context never fails; whatever the
previous routing state was — including an already-active batch — the
entry unconditionally installs the fresh pipeline as the process's sole
active batch, discarding a previously active one unexecuted. -/
theorem pipeline_enter_replaces (st : ProcState) (fresh : Pipeline) :
    pipelineEnter st fresh = ⟨some fresh⟩ :=
  rfl

/-- C4: the claim fails on the code in its adoption clause.  On a fresh
handle (tag unset, remote list empty), `extend([1, "a"])` raises a
`TypeError` and pushes nothing — yet afterwards the tag is `int`: the
tag was adopted by `_check_type` during a write that never succeeded,
contradicting "the tag itself is adopted on the first successful
write". -/
theorem extend_failed_write_adopts_tag :
    listExtend ⟨initTag, []⟩ (.cons (.int 1) (.cons (.str "a") .nil)) = (⟨some .int, []⟩, false)
    ∧ (⟨some .int, []⟩ : ListState).tag ≠ initTag :=
  ⟨rfl, by decide⟩

/-- C4 (amended): on a handle whose tag is already the concrete type
`t`, a write of a conflicting (non-list) value fails with a type error
and does not mutate the remote list, and the tag stays `t`; the tag
itself, however, is adopted at `_check_type` time of the first
type-checked write attempt, even when that write then fails (see the
counterexample). -/
theorem extend_conflict_fails_without_mutation (st : ListState) (t : PyType) (v : PyVal)
    (rest : PyValList) (htag : st.tag = some t) (hmany : isMany v = false)
    (hne : pyTypeOf v ≠ t) :
    listExtend st (.cons v rest) = ({ tag := some t, items := st.items }, false) := by
  cases v with
  | list xs => simp [isMany] at hmany
  | int n =>
    simp only [listExtend, checkType, checkMany, htag, if_neg hne]
  | str s =>
    simp only [listExtend, checkType, checkMany, htag, if_neg hne]
  | pynone =>
    simp only [listExtend, checkType, checkMany, htag, if_neg hne]

/-- C4 (witness): a handle with adopted tag `int` and one stored
element rejects `extend(["a"])` and keeps its remote list intact. -/
theorem extend_conflict_fails_without_mutation_witness :
    (⟨some .int, ["1"]⟩ : ListState).tag = some .int
    ∧ isMany (.str "a") = false
    ∧ pyTypeOf (.str "a") ≠ .int
    ∧ listExtend ⟨some .int, ["1"]⟩ (.cons (.str "a") .nil) = (⟨some .int, ["1"]⟩, false) :=
  ⟨rfl, rfl, by decide,
    extend_conflict_fails_without_mutation ⟨some .int, ["1"]⟩ .int (.str "a") .nil rfl rfl
      (by decide)⟩

/-- C5: confirmed.  The element-type tag starts unset
(`Iterable.__init__` sets it to `None`) and is only ever assigned inside
`_check_type`; once a sequence of checks has moved it to the concrete
type `t`, every extension of that sequence leaves it at `t` — a
conflicting value only raises, it never rebinds the tag. -/
theorem type_tag_monotonic (vs1 vs2 : List PyVal) (t : PyType)
    (h : runChecks initTag vs1 = some t) :
    runChecks initTag (vs1 ++ vs2) = some t := by
  rw [runChecks_append, h]
  exact runChecks_fixed t vs2

/-- C5 (witness): after adopting `int` from the first checked value, the
tag is still `int` after later checks, including a mismatching one. -/
theorem type_tag_monotonic_witness :
    runChecks initTag [.int 1] = some .int
    ∧ runChecks initTag ([.int 1] ++ [.str "a", .int 2]) = some .int :=
  ⟨rfl, type_tag_monotonic [.int 1] [.str "a", .int 2] .int rfl⟩

/-- C6: confirmed.  `Base._proxy` resolves an operation name in this
order: a name that `getattr` finds on the client object executes as a
native command with the handle's key as target — against the active
batch when the global `_pipeline` is set, else directly; a name absent
there but present in `lua_funcs` invokes that script with the key as
sole keys-entry and the call arguments as script arguments; any other
name raises `AttributeError(name)`, carrying the requested
operation. -/
theorem proxy_resolution_order (cl : RedisClient) (lua : List String) (st : ProcState)
    (key name : String) (args : List String) :
    proxy cl lua st key name args
      = (if name ∈ cl.commands then
          Except.ok
            (.native (if st.activePipeline.isSome then .batch else .direct) name key args)
        else if name ∈ lua then
          Except.ok (.script name [key] args)
        else
          Except.error name) := by
  by_cases hc : name ∈ cl.commands
  · simp only [proxy, getattrClient, if_pos hc]
  · by_cases hl : name ∈ lua
    · have hcont : lua.contains name = true := by
        simpa using hl
      simp only [proxy, getattrClient, if_neg hc, hcont, if_pos hl]
    · have hcont : lua.contains name = false := by
        simpa using hl
      simp only [proxy, getattrClient, if_neg hc, hcont, if_neg hl]

/-- C7: the claim fails on the code at `start == stop == 0`.  The slice
`[0:0]` should be empty, but `__getitem__` sends `lrange(0, -1)` —
`stop - 1` wraps to the remote store's from-the-end convention, where
`-1` is the last element — so a one-element list comes back whole.
(The source relies on this: `List.value` is `self[:]`, which reaches the
store as `lrange(0, -1)`.) -/
theorem slice_zero_zero_not_empty :
    listGetSlice ["a"] (some 0) (some 0) = ["a"] ∧ (["a"] : List String) ≠ [] :=
  ⟨rfl, by decide⟩

/-- C7 (amended): for a slice `[start:stop]` with both bounds given,
`0 ≤ start` and `1 ≤ stop` — so that the inclusive-end adjustment
`stop - 1` stays non-negative — the result is exactly the elements at
positions `start` through `stop - 1`; in particular `start == stop ≥ 1`
yields the empty list.  When `stop = 0` the adjusted bound `-1` instead
counts from the end of the list (see the counterexample). -/
theorem slice_bounded_semantics (xs : List String) (start stop : Int)
    (h0 : 0 ≤ start) (h1 : 1 ≤ stop) :
    listGetSlice xs (some start) (some stop)
      = (xs.drop start.toNat).take (stop - start).toNat := by
  show lrange xs start (stop - 1) = _
  rw [lrange_nonneg xs start (stop - 1) h0 (by omega)]
  have harith : stop - 1 - start + 1 = stop - start := by omega
  rw [harith]

/-- C7 (witness): `["a","b","c"][1:2]` is `["b"]`, the element at
position `1`. -/
theorem slice_bounded_semantics_witness :
    (0 : Int) ≤ 1 ∧ (1 : Int) ≤ 2
    ∧ listGetSlice ["a", "b", "c"] (some 1) (some 2) = ["b"] :=
  ⟨by decide, by decide, by rw [slice_bounded_semantics _ _ _ (by decide) (by decide)]; rfl⟩

/-- A store holding the same two-element list under the two distinct
keys `"k1"` and `"k2"`. -/
def sampleStore : ListStore :=
  fun k => if k = "k1" then ["1", "2"] else if k = "k2" then ["1", "2"] else []

/-- An untagged handle on `"k1"`. -/
def sampleH1 : IterHandle := ⟨"k1", none⟩

/-- An untagged handle on `"k2"`. -/
def sampleH2 : IterHandle := ⟨"k2", none⟩

/-- The value both sample handles reconstruct. -/
def sampleVals : List PyVal := [.str "1", .str "2"]

/-- C8: confirmed.  `Iterable.__eq__` compares the two handles'
reconstructed values (`self.value == value.value`); the identifiers play
no role, so two handles of the List variant whose reconstructions agree
compare equal even though their keys differ. -/
theorem handle_eq_ignores_identifier (s : ListStore) (h1 h2 : IterHandle) (v : List PyVal)
    (e1 : listValueOf s h1 = some v) (e2 : listValueOf s h2 = some v)
    (_hk : h1.key ≠ h2.key) :
    listEqB s h1 h2 = some true := by
  simp only [listEqB, e1, e2, pyEqValsB_refl]

/-- C8 (witness): the two sample handles address different keys holding
equal lists, and their equality comparison returns true. -/
theorem handle_eq_ignores_identifier_witness :
    listValueOf sampleStore sampleH1 = some sampleVals
    ∧ listValueOf sampleStore sampleH2 = some sampleVals
    ∧ sampleH1.key ≠ sampleH2.key
    ∧ listEqB sampleStore sampleH1 sampleH2 = some true :=
  ⟨rfl, rfl, by decide,
    handle_eq_ignores_identifier sampleStore sampleH1 sampleH2 sampleVals rfl rfl (by decide)⟩
